import Mathlib

/-!
Shallow embedding of the tradelog analytics engine.

The repository holds two implementations of the analytics:
* `src/simple_analyzer.py` (`SimpleTradeAnalyzer`), modelled below by the
  definitions without a `TA` prefix;
* `src/src/trade_analyzer.py` (`TradeAnalyzer`, pandas based), modelled by
  the `TA`-prefixed definitions.

Modelling conventions: Python floats become `ℚ` (exact arithmetic);
a `date` string in `YYYY-MM-DD` form is modelled by a natural number,
because lexicographic comparison of such strings coincides with the
numeric order of their digit strings, and the code never inspects the
date beyond comparing it; a raw CSV cell is modelled by its parse result
(`none` = the cell is absent, `some none` = present but unparseable,
`some (some v)` = parses to `v`); a Python expression that raises or
yields a NaN/undefined float is modelled with `Option` (`none` = no
value produced).
-/

namespace Tradelog

/-- ASCII lowering of one character, the effect of Python's `str.lower`
on the side strings the code compares. -/
def lowerChar (c : Char) : Char :=
  if c.toNat ≥ 65 ∧ c.toNat ≤ 90 then Char.ofNat (c.toNat + 32) else c

/-- ASCII lowering of a string (`side.lower()` in the code). -/
def lowerStr (s : String) : String := String.mk (s.data.map lowerChar)

/-- A loaded trade row (`SimpleTradeAnalyzer.load_trades` builds this dict:
`date, symbol, side, entry_price, exit_price, quantity, commission,
risk_amount, setup, notes`). -/
structure Trade where
  date : ℕ
  symbol : String
  side : String
  entry_price : ℚ
  exit_price : ℚ
  quantity : ℤ
  commission : ℚ
  risk_amount : ℚ
  setup : String
  notes : String
deriving DecidableEq

/-- `trade['side'].lower() == 'long'` (`simple_analyzer.py` line 47; any
other side string falls into the `else` short branch). -/
def isLong (t : Trade) : Bool := lowerStr t.side == "long"

/-- Gross P&L (`simple_analyzer.py` lines 47-50): `(exit - entry) * quantity`
for a long trade, `(entry - exit) * quantity` otherwise. -/
def gross_pnl (t : Trade) : ℚ :=
  if isLong t then (t.exit_price - t.entry_price) * (t.quantity : ℚ)
  else (t.entry_price - t.exit_price) * (t.quantity : ℚ)

/-- `net_pnl = gross_pnl - commission` (`simple_analyzer.py` line 54). -/
def net_pnl (t : Trade) : ℚ := gross_pnl t - t.commission

/-- `is_winner = net_pnl > 0` (`simple_analyzer.py` line 55). -/
def is_winner (t : Trade) : Bool := decide (0 < net_pnl t)

/-- `r_multiple = gross_pnl / risk_amount if risk_amount > 0 else 0`
(`simple_analyzer.py` lines 58-61). -/
def r_multiple (t : Trade) : ℚ :=
  if 0 < t.risk_amount then gross_pnl t / t.risk_amount else 0

/-- The comparison `sorted(..., key=lambda x: x['date'])` sorts by. -/
def dateLe (a b : Trade) : Bool := decide (a.date ≤ b.date)

/-- `sorted(self.trades, key=lambda x: x['date'])` (`simple_analyzer.py`
line 66); Python's `sorted` is a stable merge sort. -/
def sortByDate (ts : List Trade) : List Trade := ts.mergeSort dateLe

/-- One entry of the equity curve scan: the trade together with the
`cumulative_pnl` and `drawdown` attached to it, and the running `peak`
the loop carried at that point (`simple_analyzer.py` lines 63-70). -/
structure EquityPoint where
  trade : Trade
  cum : ℚ
  peak : ℚ
  dd : ℚ
deriving DecidableEq

/-- The equity-curve loop of `calculate_metrics` (`simple_analyzer.py`
lines 63-70): starting from carried state `(c, p)` it adds each trade's
net P&L, updates the running peak, and attaches `drawdown = cum - peak`. -/
def equitySteps : ℚ → ℚ → List Trade → List EquityPoint
  | _, _, [] => []
  | c, p, t :: ts =>
    let c2 := c + net_pnl t
    let p2 := max p c2
    ⟨t, c2, p2, c2 - p2⟩ :: equitySteps c2 p2 ts

/-- The full time-series pass: sort by date, then scan with
`cumulative_pnl = 0` and `peak = 0` initially (`simple_analyzer.py`
lines 64-65). -/
def processTrades (ts : List Trade) : List EquityPoint :=
  equitySteps 0 0 (sortByDate ts)

/-- `winners = [t for t in self.trades if t['is_winner']]`
(`simple_analyzer.py` line 78). -/
def winners (ts : List Trade) : List Trade := ts.filter (fun t => is_winner t)

/-- `losers = [t for t in self.trades if not t['is_winner']]`
(`simple_analyzer.py` line 79). -/
def losers (ts : List Trade) : List Trade := ts.filter (fun t => ! is_winner t)

/-- `win_rate = (winning_trades / total_trades) * 100`
(`simple_analyzer.py` line 83). -/
def win_rate (ts : List Trade) : ℚ :=
  ((winners ts).length : ℚ) / (ts.length : ℚ) * 100

/-- `avg_win = statistics.mean([...]) if winners else 0`
(`simple_analyzer.py` line 85). -/
def avg_win (ts : List Trade) : ℚ :=
  if (winners ts).isEmpty then 0
  else ((winners ts).map net_pnl).sum / ((winners ts).length : ℚ)

/-- `avg_loss = statistics.mean([...]) if losers else 0`
(`simple_analyzer.py` line 86). -/
def avg_loss (ts : List Trade) : ℚ :=
  if (losers ts).isEmpty then 0
  else ((losers ts).map net_pnl).sum / ((losers ts).length : ℚ)

/-- A payoff-ratio value: either a finite rational or the float
sentinel `float('inf')`. -/
inductive PayoffVal where
  | fin : ℚ → PayoffVal
  | inf : PayoffVal
deriving DecidableEq

/-- `payoff_ratio = abs(avg_win / avg_loss) if avg_loss != 0 else
float('inf')` (`simple_analyzer.py` line 88). -/
def payoff (ts : List Trade) : PayoffVal :=
  if avg_loss ts ≠ 0 then PayoffVal.fin |avg_win ts / avg_loss ts|
  else PayoffVal.inf

/-- `total_pnl = sum(t['net_pnl'] for t in self.trades)`
(`simple_analyzer.py` line 90). -/
def total_pnl (ts : List Trade) : ℚ := (ts.map net_pnl).sum

/-- `total_commission = sum(t['commission'] for t in self.trades)`
(`simple_analyzer.py` line 91). -/
def total_commission (ts : List Trade) : ℚ := (ts.map Trade.commission).sum

/-- `expectancy = (win_rate/100 * avg_win) + ((100-win_rate)/100 * avg_loss)`
(`simple_analyzer.py` line 94). -/
def expectancy (ts : List Trade) : ℚ :=
  win_rate ts / 100 * avg_win ts + (100 - win_rate ts) / 100 * avg_loss ts

/-- `avg_r = statistics.mean([t['r_multiple'] for t in self.trades])`
(`simple_analyzer.py` line 97; only reached on a non-empty trade list). -/
def avg_r (ts : List Trade) : ℚ :=
  (ts.map r_multiple).sum / (ts.length : ℚ)

/-- `max_drawdown = min([t['drawdown'] for t in self.trades])`
(`simple_analyzer.py` line 100; only reached on a non-empty trade list,
so the `getD` default is never used there). -/
def max_drawdown (ts : List Trade) : ℚ :=
  (((processTrades ts).map EquityPoint.dd).min?).getD 0

/-- `[t['cumulative_pnl'] for t in self.trades if t['cumulative_pnl'] > 0]`
(`simple_analyzer.py` line 101). -/
def posCums (ts : List Trade) : List ℚ :=
  ((processTrades ts).map EquityPoint.cum).filter (fun c => decide (0 < c))

/-- `max([...] or [1])` (`simple_analyzer.py` line 101): the largest
positive cumulative P&L, or `1` when there is none. -/
def ddDivisor (ts : List Trade) : ℚ := ((posCums ts).max?).getD 1

/-- `max_dd_pct = (max_drawdown / max([...] or [1])) * 100`
(`simple_analyzer.py` line 101). -/
def max_dd_pct (ts : List Trade) : ℚ := max_drawdown ts / ddDivisor ts * 100

/-- Round-half-to-even of a rational, Python's `round` on an exact value. -/
def roundHalfEven (x : ℚ) : ℤ :=
  if x - ⌊x⌋ < 1/2 then ⌊x⌋
  else if 1/2 < x - ⌊x⌋ then ⌊x⌋ + 1
  else if ⌊x⌋ % 2 = 0 then ⌊x⌋ else ⌊x⌋ + 1

/-- Python's `round(x, 2)` on an exact value. -/
def round2 (q : ℚ) : ℚ := (roundHalfEven (q * 100) : ℚ) / 100

/-- `round` applied to a payoff value (`round(float('inf'), 2)` is still
infinity). -/
def roundPayoff : PayoffVal → PayoffVal
  | PayoffVal.fin q => PayoffVal.fin (round2 q)
  | PayoffVal.inf => PayoffVal.inf

/-- The dict returned by `SimpleTradeAnalyzer.get_basic_stats`
(`simple_analyzer.py` lines 103-117); every numeric entry is rounded to
two decimals there. -/
structure Stats where
  total_trades : ℕ
  winning_trades : ℕ
  losing_trades : ℕ
  win_rate : ℚ
  avg_win : ℚ
  avg_loss : ℚ
  payoff_val : PayoffVal
  total_pnl : ℚ
  total_commission : ℚ
  expectancy : ℚ
  avg_r_multiple : ℚ
  max_drawdown : ℚ
  max_dd_pct : ℚ
deriving DecidableEq

/-- `SimpleTradeAnalyzer.get_basic_stats` (`simple_analyzer.py` lines
72-117): `if not self.trades: return {}` — the empty dict is modelled by
`none`. -/
def getBasicStats (ts : List Trade) : Option Stats :=
  if ts.isEmpty then none
  else some
    { total_trades := ts.length
      winning_trades := (winners ts).length
      losing_trades := (losers ts).length
      win_rate := round2 (win_rate ts)
      avg_win := round2 (avg_win ts)
      avg_loss := round2 (avg_loss ts)
      payoff_val := roundPayoff (payoff ts)
      total_pnl := round2 (total_pnl ts)
      total_commission := round2 (total_commission ts)
      expectancy := round2 (expectancy ts)
      avg_r_multiple := round2 (avg_r ts)
      max_drawdown := round2 (max_drawdown ts)
      max_dd_pct := round2 (max_dd_pct ts) }

/-- `setup = trade['setup'] or 'no_setup'` (`simple_analyzer.py` line 124):
the empty setup string is falsy, so such trades land in the sentinel
`no_setup` group. -/
def keyOf (t : Trade) : String := if t.setup = "" then "no_setup" else t.setup

/-- The trades of one group of `get_setup_stats` (`simple_analyzer.py`
lines 121-125): `defaultdict` grouping keeps, for each key, the trades
with that key in input order, i.e. a filter. -/
def groupTrades (ts : List Trade) (k : String) : List Trade :=
  ts.filter (fun t => keyOf t == k)

/-- The group keys of `get_setup_stats`, in first-appearance order with
duplicates removed (the keys of the `defaultdict`). -/
def groupKeys (ts : List Trade) : List String := (ts.map keyOf).dedup

/-- One group's `total_pnl = sum(t['net_pnl'] for t in trades)`
(`simple_analyzer.py` line 130), before the output rounding. -/
def groupTotal (ts : List Trade) (k : String) : ℚ :=
  ((groupTrades ts k).map net_pnl).sum

/-- The `total_pnl` value actually placed in the per-setup results dict:
`round(total_pnl, 2)` (`simple_analyzer.py` line 138). -/
def groupTotalOut (ts : List Trade) (k : String) : ℚ := round2 (groupTotal ts k)

/-- One raw CSV row as `load_trades` sees it (`simple_analyzer.py` lines
26-37). Each cell is modelled by its parse result: `none` = the column is
absent (Python raises `KeyError`), `some none` = present but
`float`/`int` fails on it (`ValueError`), `some (some v)` = parses to
`v`. The date cell is never converted, only stored, so it carries no
inner `Option`. -/
structure RawRow where
  date : Option ℕ
  symbol : Option String
  side : Option String
  entry_price : Option (Option ℚ)
  exit_price : Option (Option ℚ)
  quantity : Option (Option ℤ)
  commission : Option (Option ℚ)
  risk_amount : Option (Option ℚ)
  setup : Option String
  notes : Option String

/-- Building one trade dict from a row (`simple_analyzer.py` lines 26-37):
any missing required field or failed numeric conversion raises, modelled
by `none`; `setup`/`notes` use `row.get(..., '')`. No check on the sign
of quantity or prices is performed. -/
def parseRow (r : RawRow) : Option Trade := do
  let date ← r.date
  let symbol ← r.symbol
  let side ← r.side
  let epCell ← r.entry_price
  let entry_price ← epCell
  let xpCell ← r.exit_price
  let exit_price ← xpCell
  let qCell ← r.quantity
  let quantity ← qCell
  let cCell ← r.commission
  let commission ← cCell
  let rCell ← r.risk_amount
  let risk_amount ← rCell
  pure { date, symbol, side, entry_price, exit_price, quantity, commission,
         risk_amount, setup := r.setup.getD "", notes := r.notes.getD "" }

/-- `SimpleTradeAnalyzer.load_trades` (`simple_analyzer.py` lines 19-41):
the whole row loop sits in one `try`, so the first row that raises aborts
the loop; the exception is caught and printed, the method returns
normally, and `self.trades` keeps the rows appended before the bad one. -/
def loadTrades : List RawRow → List Trade
  | [] => []
  | r :: rs =>
    match parseRow r with
    | none => []
    | some t => t :: loadTrades rs

/-- A row of the pandas `TradeAnalyzer`'s dataframe
(`src/src/trade_analyzer.py`): its CSV additionally carries `time`
(the time of day, combined with `date` into the `datetime` sort key at
line 26), `stop_loss` and `strategy`; `side` and `risk_amount` are
loaded but never used in its computations. -/
structure TATrade where
  date : ℕ
  time : ℕ
  symbol : String
  side : String
  entry_price : ℚ
  exit_price : ℚ
  quantity : ℤ
  commission : ℚ
  stop_loss : ℚ
  risk_amount : ℚ
  strategy : String
deriving DecidableEq

/-- `gross_pnl = (exit_price - entry_price) * quantity`
(`src/src/trade_analyzer.py` lines 38-39): no adjustment for `side`. -/
def TAgross (t : TATrade) : ℚ := (t.exit_price - t.entry_price) * (t.quantity : ℚ)

/-- `net_pnl = gross_pnl - commission` (`src/src/trade_analyzer.py` line 40). -/
def TAnet (t : TATrade) : ℚ := TAgross t - t.commission

/-- `return_pct = price_diff / entry_price * 100`
(`src/src/trade_analyzer.py` line 43). -/
def TAreturnPct (t : TATrade) : ℚ :=
  (t.exit_price - t.entry_price) / t.entry_price * 100

/-- `risk_pct = abs(entry_price - stop_loss) / entry_price * 100`
(`src/src/trade_analyzer.py` line 46). -/
def TAriskPct (t : TATrade) : ℚ := |t.entry_price - t.stop_loss| / t.entry_price * 100

/-- `r_multiple = return_pct / risk_pct` (`src/src/trade_analyzer.py`
line 47): the division is unguarded, so a zero `risk_pct` yields an
undefined float (`none`). -/
def TArMultiple (t : TATrade) : Option ℚ :=
  if TAriskPct t = 0 then none else some (TAreturnPct t / TAriskPct t)

/-- `is_win = net_pnl > 0` (`src/src/trade_analyzer.py` line 50). -/
def TAisWin (t : TATrade) : Bool := decide (0 < TAnet t)

/-- `is_loss = net_pnl < 0` (`src/src/trade_analyzer.py` line 51): a zero
net P&L is neither a win nor a loss here. -/
def TAisLoss (t : TATrade) : Bool := decide (TAnet t < 0)

/-- `avg_win = mean over is_win rows if winning_trades > 0 else 0`
(`src/src/trade_analyzer.py` line 71). -/
def TAavgWin (ts : List TATrade) : ℚ :=
  if (ts.filter TAisWin).isEmpty then 0
  else ((ts.filter TAisWin).map TAnet).sum / (((ts.filter TAisWin).length : ℚ))

/-- `avg_loss = mean over is_loss rows if losing_trades > 0 else 0`
(`src/src/trade_analyzer.py` line 72). -/
def TAavgLoss (ts : List TATrade) : ℚ :=
  if (ts.filter TAisLoss).isEmpty then 0
  else ((ts.filter TAisLoss).map TAnet).sum / (((ts.filter TAisLoss).length : ℚ))

/-- `payoff_ratio = abs(avg_win / avg_loss) if avg_loss != 0 else 0`
(`src/src/trade_analyzer.py` line 75): this implementation returns `0`,
not infinity, when `avg_loss` is zero. -/
def TApayoff (ts : List TATrade) : PayoffVal :=
  if TAavgLoss ts ≠ 0 then PayoffVal.fin |TAavgWin ts / TAavgLoss ts|
  else PayoffVal.fin 0

/-- The subset of `TradeAnalyzer.calculate_kpis`' result dict
(`src/src/trade_analyzer.py` lines 92-107) the claims refer to. -/
structure TAStats where
  total_trades : ℕ
  winning_trades : ℕ
  losing_trades : ℕ
  win_rate : ℚ
  total_pnl : ℚ
  avg_win : ℚ
  avg_loss : ℚ
  payoff_val : PayoffVal
deriving DecidableEq

/-- `TradeAnalyzer.calculate_kpis` (`src/src/trade_analyzer.py` lines
57-109): `if self.trades is None or len(self.trades) == 0: return {}`,
the empty dict modelled by `none`. -/
def TAcalculateKpis (ts : List TATrade) : Option TAStats :=
  if ts.isEmpty then none
  else some
    { total_trades := ts.length
      winning_trades := (ts.filter TAisWin).length
      losing_trades := (ts.filter TAisLoss).length
      win_rate := ((ts.filter TAisWin).length : ℚ) / (ts.length : ℚ) * 100
      total_pnl := (ts.map TAnet).sum
      avg_win := TAavgWin ts
      avg_loss := TAavgLoss ts
      payoff_val := TApayoff ts }

/-- The comparison `sort_values('datetime')` orders by: the `datetime`
column is built from `date` and `time` (`src/src/trade_analyzer.py`
line 26), so rows compare by date first and by time of day within a
date — the time acts as a secondary sort key. -/
def TAdatetimeLe (a b : TATrade) : Bool :=
  decide (a.date < b.date ∨ (a.date = b.date ∧ a.time ≤ b.time))

/-- `self.trades.sort_values('datetime')` (`src/src/trade_analyzer.py`
line 116): sorted by the combined date-and-time key. -/
def TAsorted (ts : List TATrade) : List TATrade := ts.mergeSort TAdatetimeLe

/-- Prefix sums with carried accumulator (`cumsum`). -/
def cumsumFrom (c : ℚ) : List ℚ → List ℚ
  | [] => []
  | x :: xs => (c + x) :: cumsumFrom (c + x) xs

/-- `cumulative_pnl = self.trades.sort_values('datetime')['net_pnl'].cumsum()`
(`src/src/trade_analyzer.py` line 116). -/
def TAcumulative (ts : List TATrade) : List ℚ :=
  cumsumFrom 0 ((TAsorted ts).map TAnet)

/-- Running maximum with carried accumulator. -/
def runmaxFrom (m : ℚ) : List ℚ → List ℚ
  | [] => []
  | x :: xs => max m x :: runmaxFrom (max m x) xs

/-- `running_max = cumulative_pnl.expanding().max()`
(`src/src/trade_analyzer.py` line 117): the running maximum over the
entries seen so far, with no initial `0` element. -/
def runningMax (l : List ℚ) : List ℚ :=
  match l with
  | [] => []
  | x :: xs => x :: runmaxFrom x xs

/-- The running maximum of the TA cumulative P&L series. -/
def TArunningMax (ts : List TATrade) : List ℚ := runningMax (TAcumulative ts)

/-- `drawdown = (cumulative_pnl - running_max) / running_max * 100`
(`src/src/trade_analyzer.py` line 118): the division is unguarded, so an
entry whose running maximum is `0` is an undefined float (`none`). -/
def TAddPct (ts : List TATrade) : List (Option ℚ) :=
  (TAcumulative ts).zipWith
    (fun c m => if m = 0 then none else some ((c - m) / m * 100))
    (TArunningMax ts)

/-- The spec's long scenario: entry 100, exit 110, quantity 10,
commission 5, risk 50. -/
def demoLong : Trade := ⟨1, "AAPL", "long", 100, 110, 10, 5, 50, "breakout", ""⟩

/-- The spec's short scenario: entry 50, exit 60, quantity 5,
commission 1, risk 0. -/
def demoShort : Trade := ⟨2, "TSLA", "short", 50, 60, 5, 1, 0, "", ""⟩

/-- A trade whose net P&L is exactly zero. -/
def zeroTrade : Trade := ⟨3, "MSFT", "long", 10, 10, 1, 0, 0, "", ""⟩

/-- A single losing trade (net P&L −10): its equity curve never goes
positive. -/
def loseTrade : Trade := ⟨4, "NVDA", "long", 20, 10, 1, 0, 0, "", ""⟩

/-- A trade with net P&L 1/1000, small enough that rounding to two
decimals discards it; its setup tag is empty. -/
def tinyTrade : Trade := ⟨5, "AMZN", "long", 1, 1001/1000, 1, 0, 0, "", ""⟩

/-- A two-trade record set already in date order. -/
def demoTs : List Trade := [demoLong, demoShort]

/-- The equity point of `demoLong` within `demoTs`. -/
def demoPt0 : EquityPoint := ⟨demoLong, 95, 95, 0⟩

/-- The equity point of `demoShort` within `demoTs`. -/
def demoPt1 : EquityPoint := ⟨demoShort, 44, 95, -51⟩

/-- The spec's short scenario as a `TradeAnalyzer` row. -/
def taShort : TATrade := ⟨1, 930, "TSLA", "short", 50, 60, 5, 1, 49, 0, "mean"⟩

/-- A winning `TradeAnalyzer` row (net P&L 1). -/
def taWin : TATrade := ⟨2, 930, "AAPL", "long", 10, 11, 1, 0, 9, 0, "trend"⟩

/-- Another winning `TradeAnalyzer` row (net P&L 2). -/
def taWin2 : TATrade := ⟨3, 930, "NFLX", "long", 20, 22, 1, 0, 18, 0, "trend"⟩

/-- A `TradeAnalyzer` row with net P&L exactly zero. -/
def taZero : TATrade := ⟨4, 930, "MSFT", "long", 10, 10, 1, 0, 9, 0, "x"⟩

/-- A `TradeAnalyzer` row with `risk_amount = 0` but a stop-loss 5% away:
entry 100, exit 110, stop 95. -/
def taR : TATrade := ⟨5, 930, "AMZN", "long", 100, 110, 10, 0, 95, 0, "y"⟩

/-- A `TradeAnalyzer` row dated day 10 at the later time of day 14:00
(net P&L 2). -/
def taLate : TATrade := ⟨10, 1400, "QQQ", "long", 20, 22, 1, 0, 18, 0, "trend"⟩

/-- A `TradeAnalyzer` row on the same date, day 10, at the earlier time
of day 9:30 (net P&L 1). -/
def taEarly : TATrade := ⟨10, 930, "SPY", "long", 10, 11, 1, 0, 9, 0, "trend"⟩

/-- A raw row that parses to `demoLong`. -/
def goodRow : RawRow :=
  ⟨some 1, some "AAPL", some "long", some (some 100), some (some 110),
   some (some 10), some (some 5), some (some 50), some "breakout", some ""⟩

/-- A raw row whose quantity cell does not parse (`int` raises). -/
def badRow : RawRow :=
  ⟨some 2, some "TSLA", some "short", some (some 50), some (some 60),
   some none, some (some 1), some (some 0), some "", some ""⟩

/-- A raw row with a negative quantity; every cell parses. -/
def negQtyRow : RawRow :=
  ⟨some 6, some "IBM", some "long", some (some 10), some (some 12),
   some (some (-5)), some (some 0), some (some 0), none, none⟩

/-- The trade `load_trades` builds from `negQtyRow`. -/
def negQtyTrade : Trade := ⟨6, "IBM", "long", 10, 12, -5, 0, 0, "", ""⟩

/-- A raw row with a negative entry price; every cell parses. -/
def negPriceRow : RawRow :=
  ⟨some 7, some "IBM", some "long", some (some (-10)), some (some 12),
   some (some 1), some (some 0), some (some 0), none, none⟩

/-- The trade `load_trades` builds from `negPriceRow`. -/
def negPriceTrade : Trade := ⟨7, "IBM", "long", -10, 12, 1, 0, 0, "", ""⟩

theorem equitySteps_cons (c p : ℚ) (t : Trade) (ts : List Trade) :
    equitySteps c p (t :: ts) =
      ⟨t, c + net_pnl t, max p (c + net_pnl t),
        c + net_pnl t - max p (c + net_pnl t)⟩ ::
        equitySteps (c + net_pnl t) (max p (c + net_pnl t)) ts := rfl

theorem equitySteps_zero (c p : ℚ) (ts : List Trade) (a : EquityPoint)
    (h : (equitySteps c p ts)[0]? = some a) :
    a.cum = c + net_pnl a.trade ∧ a.peak = max p a.cum ∧ a.dd = a.cum - a.peak := by
  cases ts with
  | nil => simp [equitySteps] at h
  | cons t ts =>
    rw [equitySteps_cons] at h
    simp only [List.getElem?_cons_zero, Option.some.injEq] at h
    subst h
    exact ⟨rfl, rfl, rfl⟩

theorem equitySteps_succ :
    ∀ (ts : List Trade) (c p : ℚ) (i : ℕ) (a b : EquityPoint),
      (equitySteps c p ts)[i]? = some a →
      (equitySteps c p ts)[i + 1]? = some b →
      b.cum = a.cum + net_pnl b.trade ∧ b.peak = max a.peak b.cum
  | [], _, _, _, _, _, h1, _ => by simp [equitySteps] at h1
  | t :: ts, c, p, 0, a, b, h1, h2 => by
    rw [equitySteps_cons] at h1 h2
    simp only [List.getElem?_cons_zero, Option.some.injEq] at h1
    subst h1
    have h2a : (equitySteps (c + net_pnl t) (max p (c + net_pnl t)) ts)[0]?
        = some b := by simpa using h2
    obtain ⟨hc, hp, _⟩ := equitySteps_zero _ _ _ _ h2a
    exact ⟨hc, hp⟩
  | t :: ts, c, p, i + 1, a, b, h1, h2 => by
    rw [equitySteps_cons] at h1 h2
    simp only [List.getElem?_cons_succ] at h1 h2
    exact equitySteps_succ ts _ _ i a b h1 h2

theorem equitySteps_mem (c p : ℚ) (ts : List Trade) :
    ∀ x ∈ equitySteps c p ts, x.dd = x.cum - x.peak ∧ x.cum ≤ x.peak ∧ x.dd ≤ 0 := by
  induction ts generalizing c p with
  | nil => intro x hx; simp [equitySteps] at hx
  | cons t ts ih =>
    intro x hx
    rw [equitySteps_cons] at hx
    rcases List.mem_cons.mp hx with rfl | hx
    · exact ⟨rfl, le_max_right _ _, sub_nonpos.mpr (le_max_right _ _)⟩
    · exact ih _ _ x hx

theorem dateLe_trans : ∀ a b c : Trade, dateLe a b → dateLe b c → dateLe a c := by
  intro a b c hab hbc
  simp only [dateLe, decide_eq_true_eq] at *
  omega

theorem dateLe_total : ∀ a b : Trade, dateLe a b || dateLe b a := by
  intro a b
  simp only [dateLe, Bool.or_eq_true, decide_eq_true_eq]
  omega

theorem sortByDate_sorted (ts : List Trade) :
    (sortByDate ts).Pairwise fun a b => a.date ≤ b.date := by
  have h : (ts.mergeSort dateLe).Pairwise fun a b => dateLe a b :=
    List.sorted_mergeSort dateLe_trans dateLe_total ts
  exact h.imp (by intro a b hb; simpa [dateLe] using hb)

theorem sortByDate_filter_date (ts : List Trade) (d : ℕ) :
    (sortByDate ts).filter (fun t => t.date == d)
      = ts.filter (fun t => t.date == d) := by
  have hsub : List.Sublist (ts.filter (fun t => t.date == d)) (ts.mergeSort dateLe) := by
    apply List.sublist_mergeSort dateLe_trans dateLe_total
    · apply List.pairwise_of_forall_mem_list
      intro a ha b hb
      have had : a.date = d := by simpa using (List.mem_filter.mp ha).2
      have hbd : b.date = d := by simpa using (List.mem_filter.mp hb).2
      simp [dateLe, had, hbd]
    · exact List.filter_sublist ts
  have hsub2 : List.Sublist (ts.filter (fun t => t.date == d))
      ((sortByDate ts).filter (fun t => t.date == d)) := by
    have h2 := hsub.filter (fun t => t.date == d)
    rwa [List.filter_eq_self.mpr (fun a ha => (List.mem_filter.mp ha).2)] at h2
  have hperm : List.Perm ((sortByDate ts).filter (fun t => t.date == d))
      (ts.filter (fun t => t.date == d)) :=
    (List.mergeSort_perm ts dateLe).filter _
  exact (hsub2.eq_of_length hperm.length_eq.symm).symm

theorem sortByDate_demoTs : sortByDate demoTs = demoTs :=
  List.mergeSort_of_sorted (by decide)

theorem processTrades_demoTs : processTrades demoTs = [demoPt0, demoPt1] := by
  rw [processTrades, sortByDate_demoTs]
  norm_num +decide [demoTs, equitySteps, net_pnl, gross_pnl, isLong, lowerStr,
    lowerChar, demoLong, demoShort, demoPt0, demoPt1, max_def]

theorem loadTrades_eq_takeWhile (rows : List RawRow) :
    loadTrades rows =
      (rows.takeWhile fun r => (parseRow r).isSome).filterMap parseRow := by
  induction rows with
  | nil => rfl
  | cons r rs ih =>
    cases h : parseRow r with
    | none => simp [loadTrades, h, List.takeWhile_cons]
    | some t => simp [loadTrades, h, List.takeWhile_cons, ih]

/-- C1: per-trade gross P&L. `SimpleTradeAnalyzer` sign-adjusts by side —
`(exit - entry) * quantity` for a long trade, `(entry - exit) * quantity`
otherwise — so the short scenario entry 50 / exit 60 / quantity 5 yields
−50; the pandas `TradeAnalyzer` computes `(exit - entry) * quantity` for
every row, ignoring `side`, and yields +50 on that same short trade,
violating the claimed sign rule. -/
theorem C1_gross_pnl_sign :
    (∀ t : Trade, gross_pnl t =
      if isLong t then (t.exit_price - t.entry_price) * (t.quantity : ℚ)
      else (t.entry_price - t.exit_price) * (t.quantity : ℚ))
    ∧ isLong demoShort = false
    ∧ demoShort.entry_price < demoShort.exit_price
    ∧ gross_pnl demoShort = -50
    ∧ TAgross taShort = 50
    ∧ (taShort.entry_price - taShort.exit_price) * (taShort.quantity : ℚ) = -50 := by
  refine ⟨fun t => rfl, by decide, by norm_num [demoShort], ?_, ?_, ?_⟩
  · norm_num +decide [gross_pnl, isLong, lowerStr, lowerChar, demoShort]
  · norm_num [TAgross, taShort]
  · norm_num [taShort]

/-- C2, counterexample: a single winning `TradeAnalyzer` row has
`avg_loss = 0` and `avg_win ≠ 0`, yet `calculate_kpis` reports
`payoff_ratio = 0`, not positive infinity. -/
theorem C2_payoff_counterexample :
    TAavgLoss [taWin] = 0 ∧ TAavgWin [taWin] = 1
    ∧ TApayoff [taWin] = PayoffVal.fin 0
    ∧ PayoffVal.fin 0 ≠ PayoffVal.inf := by
  have hl : TAavgLoss [taWin] = 0 := by
    norm_num +decide [TAavgLoss, TAisLoss, TAnet, TAgross, taWin, List.filter_cons]
  refine ⟨hl, ?_, ?_, fun h => PayoffVal.noConfusion h⟩
  · norm_num +decide [TAavgWin, TAisWin, TAnet, TAgross, taWin, List.filter_cons]
  · rw [TApayoff, if_neg (by simpa using hl)]

/-- C2, amended: `SimpleTradeAnalyzer.get_basic_stats` computes
`payoff_ratio = |avg_win / avg_loss|` when `avg_loss ≠ 0` and positive
infinity whenever `avg_loss = 0` (in particular when there is no losing
trade), but `TradeAnalyzer.calculate_kpis` returns `0`, not infinity,
when `avg_loss = 0`. -/
theorem C2_payoff_policy (ts : List Trade) (us : List TATrade) :
    (avg_loss ts ≠ 0 → payoff ts = PayoffVal.fin |avg_win ts / avg_loss ts|)
    ∧ (avg_loss ts = 0 → payoff ts = PayoffVal.inf)
    ∧ (losers ts = [] → payoff ts = PayoffVal.inf)
    ∧ (TAavgLoss us = 0 → TApayoff us = PayoffVal.fin 0) := by
  refine ⟨fun h => by rw [payoff, if_pos h],
          fun h => by rw [payoff, if_neg (by simpa using h)], fun h => ?_,
          fun h => by rw [TApayoff, if_neg (by simpa using h)]⟩
  have h0 : avg_loss ts = 0 := by rw [avg_loss, if_pos (by simp [h])]
  rw [payoff, if_neg (by simpa using h0)]

/-- C2, witness for the amended claim: a lone winning trade makes the
simple engine report infinity, and a lone winning `TradeAnalyzer` row
makes the pandas engine report zero. -/
theorem C2_payoff_witness :
    losers [demoLong] = [] ∧ payoff [demoLong] = PayoffVal.inf
    ∧ TAavgLoss [taWin2] = 0 ∧ TApayoff [taWin2] = PayoffVal.fin 0 := by
  have h1 : losers [demoLong] = [] := by
    norm_num +decide [losers, is_winner, net_pnl, gross_pnl, isLong, lowerStr,
      lowerChar, demoLong, List.filter_cons]
  have h2 : TAavgLoss [taWin2] = 0 := by
    norm_num +decide [TAavgLoss, TAisLoss, TAnet, TAgross, taWin2, List.filter_cons]
  exact ⟨h1, (C2_payoff_policy [demoLong] [taWin2]).2.2.1 h1, h2,
         (C2_payoff_policy [demoLong] [taWin2]).2.2.2 h2⟩

/-- C3, counterexample: loading a good row followed by a row whose
quantity does not parse yields the non-empty partial record set
`[demoLong]` — no error value is surfaced and the partial result is
returned; and a row with quantity −5 is loaded without complaint. -/
theorem C3_load_counterexample :
    loadTrades [goodRow, badRow] = [demoLong]
    ∧ loadTrades [goodRow, badRow] ≠ []
    ∧ loadTrades [negQtyRow] = [negQtyTrade] := by
  refine ⟨rfl, ?_, rfl⟩
  intro h
  rw [show loadTrades [goodRow, badRow] = [demoLong] from rfl] at h
  exact List.noConfusion h

/-- C3, amended: `load_trades` parses rows until the first one that
raises (missing field or failed numeric conversion), keeps the trades
built before it as a partial record set, and surfaces no error value at
all; no validation of `quantity ≤ 0` or non-positive prices is
performed — such rows load successfully. -/
theorem C3_load_behaviour :
    (∀ rows : List RawRow, loadTrades rows =
      (rows.takeWhile fun r => (parseRow r).isSome).filterMap parseRow)
    ∧ parseRow negQtyRow = some negQtyTrade
    ∧ negQtyTrade.quantity ≤ 0
    ∧ parseRow negPriceRow = some negPriceTrade
    ∧ negPriceTrade.entry_price ≤ 0 := by
  exact ⟨loadTrades_eq_takeWhile, rfl, by norm_num [negQtyTrade], rfl,
         by norm_num [negPriceTrade]⟩

/-- C8, counterexample: on the empty record set both engines return the
empty dict (`none`), not a `SummaryStats` with `total_trades = 0`,
`win_rate = 0` and `payoff_ratio = 0`. -/
theorem C8_empty_counterexample :
    getBasicStats ([] : List Trade) = none
    ∧ TAcalculateKpis ([] : List TATrade) = none := ⟨rfl, rfl⟩

/-- C8, amended: summarizing the empty record set raises no exception
and returns an empty mapping with no statistics fields (`{}`), and that
empty output occurs exactly for the empty record set. -/
theorem C8_empty_stats (ts : List Trade) (us : List TATrade) :
    (getBasicStats ts = none ↔ ts = [])
    ∧ (TAcalculateKpis us = none ↔ us = []) := by
  constructor
  · cases ts <;> simp [getBasicStats]
  · cases us <;> simp [TAcalculateKpis]

theorem zipWith_getElem?_some {α β γ : Type} (f : α → β → γ) :
    ∀ (as : List α) (bs : List β) (i : ℕ) (a : α) (b : β),
      as[i]? = some a → bs[i]? = some b →
      (List.zipWith f as bs)[i]? = some (f a b)
  | [], _, _, _, _, h, _ => by simp at h
  | _ :: _, [], _, _, _, _, h => by simp at h
  | x :: as, y :: bs, 0, a, b, h1, h2 => by
    simp only [List.getElem?_cons_zero, Option.some.injEq] at h1 h2
    subst h1; subst h2; simp
  | x :: as, y :: bs, i + 1, a, b, h1, h2 => by
    simp only [List.getElem?_cons_succ, List.zipWith_cons_cons] at h1 h2 ⊢
    exact zipWith_getElem?_some f as bs i a b h1 h2

theorem runmaxFrom_ge :
    ∀ (l : List ℚ) (m : ℚ) (i : ℕ) (c x : ℚ),
      l[i]? = some c → (runmaxFrom m l)[i]? = some x → c ≤ x
  | [], _, _, _, _, h, _ => by simp at h
  | y :: l, m, 0, c, x, h1, h2 => by
    simp only [runmaxFrom, List.getElem?_cons_zero, Option.some.injEq] at h1 h2
    subst h1; subst h2; exact le_max_right _ _
  | y :: l, m, i + 1, c, x, h1, h2 => by
    simp only [runmaxFrom, List.getElem?_cons_succ] at h1 h2
    exact runmaxFrom_ge l (max m y) i c x h1 h2

theorem runningMax_ge (l : List ℚ) (i : ℕ) (c x : ℚ)
    (h1 : l[i]? = some c) (h2 : (runningMax l)[i]? = some x) : c ≤ x := by
  cases l with
  | nil => simp at h1
  | cons y l =>
    cases i with
    | zero =>
      simp only [runningMax, List.getElem?_cons_zero, Option.some.injEq] at h1 h2
      subst h1; subst h2; exact le_refl _
    | succ i =>
      simp only [runningMax, List.getElem?_cons_succ] at h1 h2
      exact runmaxFrom_ge l y i c x h1 h2

theorem sum_map_add_q (K : List String) (f g : String → ℚ) :
    (K.map fun k => f k + g k).sum = (K.map f).sum + (K.map g).sum := by
  induction K with
  | nil => simp
  | cons k K ih => simp only [List.map_cons, List.sum_cons, ih]; ring

theorem sum_map_ite_single :
    ∀ (K : List String), K.Nodup → ∀ k0 : String, k0 ∈ K → ∀ c : ℚ,
      (K.map fun k => if k0 = k then c else 0).sum = c
  | [], _, _, hk, _ => absurd hk (List.not_mem_nil _)
  | k :: K, hK, k0, hk, c => by
    obtain ⟨hkK, hK2⟩ := List.nodup_cons.mp hK
    rcases List.mem_cons.mp hk with rfl | hk2
    · have hz : (K.map fun k => if k0 = k then c else 0).sum = 0 := by
        apply List.sum_eq_zero
        intro x hx
        obtain ⟨k1, hk1, rfl⟩ := List.mem_map.mp hx
        rw [if_neg]
        rintro rfl
        exact hkK hk1
      simp [hz]
    · have hne : k0 ≠ k := by rintro rfl; exact hkK hk2
      simp only [List.map_cons, List.sum_cons, if_neg hne]
      rw [sum_map_ite_single K hK2 k0 hk2 c, zero_add]

theorem sum_groups (K : List String) (hK : K.Nodup) (ts : List Trade)
    (hcov : ∀ t ∈ ts, keyOf t ∈ K) :
    (K.map fun k => ((ts.filter fun u => keyOf u == k).map net_pnl).sum).sum
      = (ts.map net_pnl).sum := by
  induction ts with
  | nil =>
    simp only [List.filter_nil, List.map_nil, List.sum_nil]
    apply List.sum_eq_zero
    intro x hx
    obtain ⟨k, _, rfl⟩ := List.mem_map.mp hx
    rfl
  | cons t ts ih =>
    have h2 : ∀ k : String,
        (((t :: ts).filter fun u => keyOf u == k).map net_pnl).sum
          = (if keyOf t = k then net_pnl t else 0)
            + ((ts.filter fun u => keyOf u == k).map net_pnl).sum := by
      intro k
      by_cases h : keyOf t = k
      · simp [List.filter_cons, h]
      · simp [List.filter_cons, h]
    simp only [h2]
    rw [sum_map_add_q,
      sum_map_ite_single K hK (keyOf t) (hcov t (List.mem_cons_self t ts)) (net_pnl t),
      ih (fun u hu => hcov u (List.mem_cons_of_mem t hu))]
    simp

theorem round2_thousandth : round2 (1/1000) = 0 := by
  have h : ((1:ℚ)/1000) * 100 = 1/10 := by norm_num
  have hf : ⌊(1:ℚ)/10⌋ = 0 := by norm_num [Int.floor_eq_iff]
  rw [round2, h, roundHalfEven, hf]
  norm_num

/-- C10: in `get_basic_stats` a trade with net P&L exactly 0 is not a
winner, lands in the losers list (`not is_winner`), is averaged into
`avg_loss`, and winners and losers partition the record set, so
`winning_trades + losing_trades = total_trades`. -/
theorem C10_zero_net_is_loser (ts : List Trade) (t : Trade)
    (ht : t ∈ ts) (h0 : net_pnl t = 0) :
    t ∈ losers ts ∧ t ∉ winners ts
    ∧ (winners ts).length + (losers ts).length = ts.length
    ∧ avg_loss ts = ((losers ts).map net_pnl).sum / ((losers ts).length : ℚ) := by
  have hw : is_winner t = false := by simp [is_winner, h0]
  have hmem : t ∈ losers ts := by simp [losers, List.mem_filter, ht, hw]
  refine ⟨hmem, by simp [winners, List.mem_filter, hw], ?_, ?_⟩
  · simpa [winners, losers] using
      (List.filter_append_perm (fun t => is_winner t) ts).length_eq
  · rw [avg_loss,
      if_neg (by simpa [List.isEmpty_iff] using List.ne_nil_of_mem hmem)]

theorem cumsumFrom_zero :
    ∀ (l : List ℚ) (c a x : ℚ),
      (cumsumFrom c l)[0]? = some a → l[0]? = some x → a = c + x
  | [], _, _, _, h, _ => by simp [cumsumFrom] at h
  | y :: l, c, a, x, h1, h2 => by
    simp only [cumsumFrom, List.getElem?_cons_zero, Option.some.injEq] at h1 h2
    subst h1; subst h2; rfl

theorem cumsumFrom_succ :
    ∀ (l : List ℚ) (c : ℚ) (i : ℕ) (a b x : ℚ),
      (cumsumFrom c l)[i]? = some a → (cumsumFrom c l)[i + 1]? = some b →
      l[i + 1]? = some x → b = a + x
  | [], _, _, _, _, _, h, _, _ => by simp [cumsumFrom] at h
  | y :: l, c, 0, a, b, x, h1, h2, h3 => by
    simp only [cumsumFrom, List.getElem?_cons_zero, List.getElem?_cons_succ,
      Option.some.injEq] at h1 h2 h3
    subst h1
    exact cumsumFrom_zero l (c + y) b x h2 h3
  | y :: l, c, i + 1, a, b, x, h1, h2, h3 => by
    simp only [cumsumFrom, List.getElem?_cons_succ] at h1 h2 h3
    exact cumsumFrom_succ l (c + y) i a b x h1 h2 h3

theorem TAdatetimeLe_trans :
    ∀ a b c : TATrade, TAdatetimeLe a b → TAdatetimeLe b c → TAdatetimeLe a c := by
  intro a b c hab hbc
  simp only [TAdatetimeLe, decide_eq_true_eq] at *
  omega

theorem TAdatetimeLe_total :
    ∀ a b : TATrade, TAdatetimeLe a b || TAdatetimeLe b a := by
  intro a b
  simp only [TAdatetimeLe, Bool.or_eq_true, decide_eq_true_eq]
  omega

theorem TAsorted_sorted (us : List TATrade) :
    (TAsorted us).Pairwise fun a b =>
      a.date < b.date ∨ (a.date = b.date ∧ a.time ≤ b.time) := by
  have h : (us.mergeSort TAdatetimeLe).Pairwise fun a b => TAdatetimeLe a b :=
    List.sorted_mergeSort TAdatetimeLe_trans TAdatetimeLe_total us
  exact h.imp (by intro a b hb; simpa [TAdatetimeLe] using hb)

theorem TAsorted_pair : TAsorted [taLate, taEarly] = [taEarly, taLate] := by
  simp [TAsorted, List.mergeSort, TAdatetimeLe, taLate, taEarly]

/-- C4, counterexample: `TradeAnalyzer` sorts by the combined datetime
key, so two rows on the same date (day 10) entered late-first come out
reordered by their time of day — equal-date records do not retain their
original relative input order, and the time of day is a secondary sort
key. -/
theorem C4_stability_counterexample :
    taLate.date = taEarly.date
    ∧ TAsorted [taLate, taEarly] = [taEarly, taLate]
    ∧ ([taEarly, taLate] : List TATrade) ≠ [taLate, taEarly]
    ∧ (TAsorted [taLate, taEarly]).filter (fun t => t.date == 10)
        ≠ ([taLate, taEarly] : List TATrade).filter (fun t => t.date == 10) := by
  have hne : ([taEarly, taLate] : List TATrade) ≠ [taLate, taEarly] := by
    intro h
    injection h with h1 _
    exact absurd (congrArg TATrade.time h1) (by decide)
  refine ⟨rfl, TAsorted_pair, hne, ?_⟩
  rw [TAsorted_pair,
    show ([taEarly, taLate] : List TATrade).filter (fun t => t.date == 10)
      = [taEarly, taLate] from rfl,
    show ([taLate, taEarly] : List TATrade).filter (fun t => t.date == 10)
      = [taLate, taEarly] from rfl]
  exact hne

/-- C4, amended: `SimpleTradeAnalyzer` processes trades sorted by date
ascending with Python's stable sort and no secondary key — for every
date, the trades carrying it keep their original relative input order —
and the first equity point's cumulative P&L is its own trade's net P&L
while each later point adds its own net P&L to the previous cumulative
value; `TradeAnalyzer` instead sorts by the combined datetime key, so
its rows are ordered by time of day within a date (an invented
secondary key), and its cumulative series follows that datetime order
with the same recurrence. -/
theorem C4_chronological (ts : List Trade) (us : List TATrade) :
    ((sortByDate ts).Pairwise fun a b => a.date ≤ b.date)
    ∧ (∀ d : ℕ, (sortByDate ts).filter (fun t => t.date == d)
        = ts.filter (fun t => t.date == d))
    ∧ (∀ a : EquityPoint, (processTrades ts)[0]? = some a →
        a.cum = net_pnl a.trade)
    ∧ (∀ (i : ℕ) (a b : EquityPoint), (processTrades ts)[i]? = some a →
        (processTrades ts)[i + 1]? = some b →
        b.cum = a.cum + net_pnl b.trade)
    ∧ ((TAsorted us).Pairwise fun a b =>
        a.date < b.date ∨ (a.date = b.date ∧ a.time ≤ b.time))
    ∧ (∀ c x : ℚ, (TAcumulative us)[0]? = some c →
        ((TAsorted us).map TAnet)[0]? = some x → c = x)
    ∧ (∀ (i : ℕ) (c d x : ℚ), (TAcumulative us)[i]? = some c →
        (TAcumulative us)[i + 1]? = some d →
        ((TAsorted us).map TAnet)[i + 1]? = some x → d = c + x) := by
  refine ⟨sortByDate_sorted ts, sortByDate_filter_date ts, ?_, ?_,
          TAsorted_sorted us, ?_, ?_⟩
  · intro a h
    rw [processTrades] at h
    simpa using (equitySteps_zero 0 0 _ a h).1
  · intro i a b h1 h2
    rw [processTrades] at h1 h2
    exact (equitySteps_succ _ 0 0 i a b h1 h2).1
  · intro c x h1 h2
    rw [TAcumulative] at h1
    simpa using cumsumFrom_zero _ 0 c x h1 h2
  · intro i c d x h1 h2 h3
    rw [TAcumulative] at h1 h2
    exact cumsumFrom_succ _ 0 i c d x h1 h2 h3

/-- C4, witness: on the concrete `demoTs` the second equity point's
cumulative P&L is the first one's plus its own net P&L
(95 + (−51) = 44), and on the reordered equal-date `TradeAnalyzer` pair
the cumulative series [1, 3] follows the datetime order with 3 = 1 + 2. -/
theorem C4_witness :
    (processTrades demoTs)[0]? = some demoPt0
    ∧ (processTrades demoTs)[1]? = some demoPt1
    ∧ demoPt1.cum = demoPt0.cum + net_pnl demoPt1.trade
    ∧ (TAcumulative [taLate, taEarly])[0]? = some 1
    ∧ (TAcumulative [taLate, taEarly])[1]? = some 3
    ∧ ((TAsorted [taLate, taEarly]).map TAnet)[1]? = some 2
    ∧ (3 : ℚ) = 1 + 2 := by
  have h0 : (processTrades demoTs)[0]? = some demoPt0 := by
    rw [processTrades_demoTs]; rfl
  have h1 : (processTrades demoTs)[1]? = some demoPt1 := by
    rw [processTrades_demoTs]; rfl
  have hmap : (TAsorted [taLate, taEarly]).map TAnet = [1, 2] := by
    rw [TAsorted_pair]
    norm_num [TAnet, TAgross, taEarly, taLate]
  have hcum : TAcumulative [taLate, taEarly] = [1, 3] := by
    rw [TAcumulative, hmap]
    norm_num [cumsumFrom]
  have hc0 : (TAcumulative [taLate, taEarly])[0]? = some 1 := by rw [hcum]; rfl
  have hc1 : (TAcumulative [taLate, taEarly])[1]? = some 3 := by rw [hcum]; rfl
  have hx : ((TAsorted [taLate, taEarly]).map TAnet)[1]? = some 2 := by
    rw [hmap]; rfl
  exact ⟨h0, h1,
    (C4_chronological demoTs [taLate, taEarly]).2.2.2.1 0 demoPt0 demoPt1 h0 h1,
    hc0, hc1, hx,
    (C4_chronological demoTs [taLate, taEarly]).2.2.2.2.2.2 0 1 3 2 hc0 hc1 hx⟩

/-- C5: along the time-series order the first equity point's peak is
`max 0 cum`, each later point's peak is `max` of the previous peak and
its own cumulative P&L — hence the peak sequence is monotonically
non-decreasing — and every point's drawdown is `cum - peak ≤ 0`. -/
theorem C5_peak_drawdown (ts : List Trade) :
    (∀ a : EquityPoint, (processTrades ts)[0]? = some a →
        a.peak = max 0 a.cum)
    ∧ (∀ (i : ℕ) (a b : EquityPoint), (processTrades ts)[i]? = some a →
        (processTrades ts)[i + 1]? = some b →
        b.peak = max a.peak b.cum ∧ a.peak ≤ b.peak)
    ∧ (∀ a ∈ processTrades ts, a.dd = a.cum - a.peak ∧ a.dd ≤ 0) := by
  refine ⟨?_, ?_, ?_⟩
  · intro a h
    rw [processTrades] at h
    exact (equitySteps_zero 0 0 _ a h).2.1
  · intro i a b h1 h2
    rw [processTrades] at h1 h2
    have h := (equitySteps_succ _ 0 0 i a b h1 h2).2
    exact ⟨h, h ▸ le_max_left _ _⟩
  · intro a ha
    rw [processTrades] at ha
    have h := equitySteps_mem 0 0 _ a ha
    exact ⟨h.1, h.2.2⟩

/-- C5, witness: on `demoTs` the second equity point's peak is the
maximum of the first peak and its own cumulative P&L, and the peak did
not decrease. -/
theorem C5_witness :
    (processTrades demoTs)[0]? = some demoPt0
    ∧ (processTrades demoTs)[1]? = some demoPt1
    ∧ demoPt1.peak = max demoPt0.peak demoPt1.cum
    ∧ demoPt0.peak ≤ demoPt1.peak := by
  have h0 : (processTrades demoTs)[0]? = some demoPt0 := by
    rw [processTrades_demoTs]; rfl
  have h1 : (processTrades demoTs)[1]? = some demoPt1 := by
    rw [processTrades_demoTs]; rfl
  obtain ⟨hp, hm⟩ := (C5_peak_drawdown demoTs).2.1 0 demoPt0 demoPt1 h0 h1
  exact ⟨h0, h1, hp, hm⟩

/-- C10, witness: the zero-net trade of a concrete two-trade set is a
loser there. -/
theorem C10_witness :
    zeroTrade ∈ [zeroTrade, demoLong] ∧ net_pnl zeroTrade = 0
    ∧ zeroTrade ∈ losers [zeroTrade, demoLong] := by
  have h0 : net_pnl zeroTrade = 0 := by
    norm_num +decide [net_pnl, gross_pnl, isLong, lowerStr, lowerChar, zeroTrade]
  exact ⟨by simp, h0,
    (C10_zero_net_is_loser [zeroTrade, demoLong] zeroTrade (by simp) h0).1⟩

theorem TAcumulative_taZero : TAcumulative [taZero] = [0] := by
  rw [TAcumulative, show TAsorted [taZero] = [taZero] from List.mergeSort_singleton _]
  norm_num [cumsumFrom, TAnet, TAgross, taZero]

theorem TArunningMax_taZero : TArunningMax [taZero] = [0] := by
  rw [TArunningMax, TAcumulative_taZero]; rfl

theorem TAddPct_taZero : TAddPct [taZero] = [none] := by
  rw [TAddPct, TAcumulative_taZero, TArunningMax_taZero]
  norm_num

theorem processTrades_loseTrade :
    processTrades [loseTrade] = [⟨loseTrade, -10, 0, -10⟩] := by
  rw [processTrades, show sortByDate [loseTrade] = [loseTrade] from
    List.mergeSort_singleton _]
  norm_num +decide [equitySteps, net_pnl, gross_pnl, isLong, lowerStr, lowerChar,
    loseTrade, max_def]

theorem max_drawdown_loseTrade : max_drawdown [loseTrade] = -10 := by
  rw [max_drawdown, processTrades_loseTrade]
  norm_num [List.min?]

theorem posCums_loseTrade : posCums [loseTrade] = [] := by
  rw [posCums, processTrades_loseTrade]
  norm_num [List.filter_cons]

theorem max_dd_pct_loseTrade : max_dd_pct [loseTrade] = -1000 := by
  rw [max_dd_pct, max_drawdown_loseTrade,
    show ddDivisor [loseTrade] = 1 from by rw [ddDivisor, posCums_loseTrade]; rfl]
  norm_num

/-- C6, counterexample: a single `TradeAnalyzer` row with net P&L 0 has
running max 0, and the unguarded division makes its drawdown percentage
undefined (`none`), not 0; and `SimpleTradeAnalyzer`'s aggregate
`max_drawdown_pct` on a single losing trade (peak 0 throughout) is
−1000, not 0. -/
theorem C6_ddpct_counterexample :
    TAddPct [taZero] = [none] ∧ max_dd_pct [loseTrade] = -1000 :=
  ⟨TAddPct_taZero, max_dd_pct_loseTrade⟩

/-- C6, amended: `TradeAnalyzer`'s per-record drawdown percentage is
`(cum - running_max) / running_max * 100` with no zero guard — it is
undefined whenever the running max is 0, and only when the running max
is positive is it guaranteed `≤ 0`; `SimpleTradeAnalyzer` computes no
per-record percentage at all, only an aggregate `max_drawdown_pct`
whose divisor falls back to 1 (not to a zero result) when no cumulative
P&L is positive. -/
theorem C6_ddpct_guard :
    (∀ (us : List TATrade) (i : ℕ) (c m : ℚ),
      (TAcumulative us)[i]? = some c → (TArunningMax us)[i]? = some m →
        (TAddPct us)[i]? = some (if m = 0 then none else some ((c - m) / m * 100))
        ∧ (0 < m → (c - m) / m * 100 ≤ 0))
    ∧ (∀ ts : List Trade, posCums ts = [] →
        ddDivisor ts = 1 ∧ max_dd_pct ts = max_drawdown ts * 100) := by
  constructor
  · intro us i c m h1 h2
    constructor
    · rw [TAddPct]
      exact zipWith_getElem?_some _ _ _ i c m h1 h2
    · intro hm
      have h2a : (runningMax (TAcumulative us))[i]? = some m := by
        rw [← TArunningMax]; exact h2
      have hcm : c ≤ m := runningMax_ge (TAcumulative us) i c m h1 h2a
      have hdiv : (c - m) / m ≤ 0 :=
        div_nonpos_of_nonpos_of_nonneg (sub_nonpos.mpr hcm) hm.le
      exact mul_nonpos_iff.mpr (Or.inr ⟨hdiv, by norm_num⟩)
  · intro ts h
    have hd : ddDivisor ts = 1 := by rw [ddDivisor, h]; rfl
    exact ⟨hd, by rw [max_dd_pct, hd, div_one]⟩

/-- C6, witness: on the zero-net `TradeAnalyzer` row the amended claim
yields the undefined entry, and on the lone losing trade the simple
engine's fallback divisor gives `max_drawdown * 100`. -/
theorem C6_ddpct_witness :
    (TAcumulative [taZero])[0]? = some 0
    ∧ (TArunningMax [taZero])[0]? = some 0
    ∧ (TAddPct [taZero])[0]? = some none
    ∧ posCums [loseTrade] = []
    ∧ max_dd_pct [loseTrade] = max_drawdown [loseTrade] * 100 := by
  have hc : (TAcumulative [taZero])[0]? = some 0 := by
    rw [TAcumulative_taZero]; rfl
  have hm : (TArunningMax [taZero])[0]? = some 0 := by
    rw [TArunningMax_taZero]; rfl
  have hp : posCums [loseTrade] = [] := posCums_loseTrade
  refine ⟨hc, hm, ?_, hp, (C6_ddpct_guard.2 [loseTrade] hp).2⟩
  have h := (C6_ddpct_guard.1 [taZero] 0 0 0 hc hm).1
  simpa using h

/-- C7, counterexample: `TradeAnalyzer` derives `r_multiple` from the
stop-loss (`return_pct / risk_pct`), ignoring `risk_amount`: a row with
`risk_amount = 0`, entry 100, exit 110, stop 95 gets `r_multiple = 2`,
not the claimed 0. -/
theorem C7_rmultiple_counterexample :
    taR.risk_amount = 0 ∧ TArMultiple taR = some 2
    ∧ (some (2:ℚ)) ≠ some (0:ℚ) := by
  refine ⟨rfl, ?_, by norm_num⟩
  norm_num [TArMultiple, TAriskPct, TAreturnPct, taR]

/-- C7, amended: in `SimpleTradeAnalyzer`, `r_multiple` is
`gross_pnl / risk_amount` when `risk_amount > 0` and 0 when
`risk_amount = 0`, and the short scenario (entry 50, exit 60, quantity
5, commission 1, risk 0) yields gross −50, net −51, r-multiple 0, not a
winner; the pandas `TradeAnalyzer` instead computes `r_multiple` as
`return_pct / risk_pct` from the stop-loss and ignores `risk_amount`. -/
theorem C7_rmultiple_policy :
    (∀ t : Trade, 0 < t.risk_amount → r_multiple t = gross_pnl t / t.risk_amount)
    ∧ (∀ t : Trade, t.risk_amount = 0 → r_multiple t = 0)
    ∧ gross_pnl demoShort = -50 ∧ net_pnl demoShort = -51
    ∧ r_multiple demoShort = 0 ∧ is_winner demoShort = false
    ∧ (∀ u : TATrade, TAriskPct u ≠ 0 →
        TArMultiple u = some (TAreturnPct u / TAriskPct u)) := by
  refine ⟨fun t h => by rw [r_multiple, if_pos h],
          fun t h => by rw [r_multiple, if_neg (by rw [h]; exact lt_irrefl 0)],
          ?_, ?_, ?_, ?_, fun u h => by rw [TArMultiple, if_neg h]⟩
  · norm_num +decide [gross_pnl, isLong, lowerStr, lowerChar, demoShort]
  · norm_num +decide [net_pnl, gross_pnl, isLong, lowerStr, lowerChar, demoShort]
  · norm_num [r_multiple, demoShort]
  · norm_num +decide [is_winner, net_pnl, gross_pnl, isLong, lowerStr, lowerChar,
      demoShort]

/-- C7, witness: the amended claim applied to the spec's long scenario
(risk 50) and to the stop-loss row `taR`. -/
theorem C7_rmultiple_witness :
    0 < demoLong.risk_amount
    ∧ r_multiple demoLong = gross_pnl demoLong / demoLong.risk_amount
    ∧ TAriskPct taR ≠ 0
    ∧ TArMultiple taR = some (TAreturnPct taR / TAriskPct taR) := by
  have h1 : 0 < demoLong.risk_amount := by norm_num [demoLong]
  have h2 : TAriskPct taR ≠ 0 := by norm_num [TAriskPct, taR]
  exact ⟨h1, C7_rmultiple_policy.1 demoLong h1, h2,
         C7_rmultiple_policy.2.2.2.2.2.2 taR h2⟩

/-- C9, counterexample: the aggregator rounds each group's total P&L to
two decimals before emitting it, so a lone trade with net P&L 1/1000
(which lands in the sentinel `no_setup` group) produces a per-group
total of 0 while the sum of net P&L is 1/1000. -/
theorem C9_rounding_counterexample :
    total_pnl [tinyTrade] = 1/1000
    ∧ ((groupKeys [tinyTrade]).map fun k => groupTotalOut [tinyTrade] k).sum = 0
    ∧ ((1:ℚ)/1000) ≠ 0 := by
  have hnet : net_pnl tinyTrade = 1/1000 := by
    norm_num +decide [net_pnl, gross_pnl, isLong, lowerStr, lowerChar, tinyTrade]
  have hk : keyOf tinyTrade = "no_setup" := by simp [keyOf, tinyTrade]
  have hkeys : groupKeys [tinyTrade] = ["no_setup"] := by simp [groupKeys, hk]
  have hg : groupTotal [tinyTrade] "no_setup" = 1/1000 := by
    rw [groupTotal, groupTrades,
      show List.filter (fun t => keyOf t == "no_setup") [tinyTrade] = [tinyTrade]
        from by simp [List.filter_cons, hk]]
    simp [hnet]
  refine ⟨by simp [total_pnl, hnet], ?_, by norm_num⟩
  rw [hkeys]
  simp only [List.map_cons, List.map_nil, List.sum_cons, List.sum_nil]
  rw [groupTotalOut, hg, round2_thousandth, add_zero]

/-- C9, amended: grouping is an exact partition — the sum of net P&L
over all records equals the sum of the per-group totals before the
2-decimal output rounding, the group keys are distinct, every record
(including those with an empty setup, which go to the `no_setup`
sentinel group) belongs to the group of its own key — but the emitted
per-group totals are rounded, so their sum can differ from the total by
the rounding error. -/
theorem C9_group_additivity (ts : List Trade) :
    ((groupKeys ts).map fun k => groupTotal ts k).sum = total_pnl ts
    ∧ (groupKeys ts).Nodup
    ∧ (∀ t ∈ ts, t ∈ groupTrades ts (keyOf t))
    ∧ (∀ t : Trade, t.setup = "" → keyOf t = "no_setup") := by
  refine ⟨?_, List.nodup_dedup _, ?_, ?_⟩
  · exact sum_groups (groupKeys ts) (List.nodup_dedup _) ts
      (fun t ht => List.mem_dedup.mpr (List.mem_map_of_mem _ ht))
  · intro t ht
    simp [groupTrades, List.mem_filter, ht]
  · intro t h
    simp [keyOf, h]

/-- C9, witness: the amended claim applied to the lone `tinyTrade`,
whose empty setup sends it to the `no_setup` group. -/
theorem C9_group_witness :
    tinyTrade ∈ [tinyTrade]
    ∧ tinyTrade ∈ groupTrades [tinyTrade] (keyOf tinyTrade)
    ∧ tinyTrade.setup = ""
    ∧ keyOf tinyTrade = "no_setup" := by
  exact ⟨by simp, (C9_group_additivity [tinyTrade]).2.2.1 tinyTrade (by simp),
         rfl, (C9_group_additivity [tinyTrade]).2.2.2 tinyTrade rfl⟩

end Tradelog
